import Mathlib

/-!
Verification of the call-log reconstruction pipeline of `src/bin/sdr.py`.

The Python source is embedded shallowly:
* the `CallStatus` / `CallState` enums become Lean inductives;
* `Call` becomes a structure; the append to the `calls_error.log` file done
  by `Call._save_error` is modelled as an `errors : List String` field;
* Python dicts (which preserve insertion order and update values in place)
  become association lists with `lookupA` / `insertA`;
* the regexes of `EventLine` become explicit string scanners with the same
  leftmost-search, greedy semantics (log lines contain no newline, so `.`
  matches every character);
* exceptions (`raise Exception("Same callref")`, `CallState(value)` on an
  unknown value, `Exception("Unknown event")`) become `Except String`.
-/

set_option maxRecDepth 10000

namespace Sdr

/-- Business-facing call statuses (`CallStatus` enum of `sdr.py`). -/
inductive CallStatus where
  | NEW
  | NOT_AVAILABLE
  | AVAILABLE
  | INIT
  | RINGING
  | ACTIVE
  | REJECT_BY_USER
  | UP
  | HANGUP
  | HANGUP_BY_USER
  | HANGUP_BY_BTS
  | BREAK_BY_BTS
  | STOP_BY_BTS
  | UNKNOWN
  deriving DecidableEq, Repr

/-- `CallStatus.is_final`: whether the status is final for the call. -/
def CallStatus.is_final (s : CallStatus) : Bool :=
  s ∈ [CallStatus.NOT_AVAILABLE, CallStatus.REJECT_BY_USER, CallStatus.HANGUP_BY_USER,
       CallStatus.HANGUP_BY_BTS, CallStatus.BREAK_BY_BTS, CallStatus.STOP_BY_BTS]

/-- Raw protocol call states (`CallState` enum of `sdr.py`). -/
inductive CallState where
  | NULL
  | CALL_PRESENT
  | MO_TERM_CALL_CONF
  | CALL_RECEIVED
  | CONNECT_REQUEST
  | ACTIVE
  | DISCONNECT_IND
  | RELEASE_REQ
  | BROKEN_BY_BTS
  | NOT_AVAILABLE
  | NEW
  deriving DecidableEq, Repr

/-- The Python enum member name (`CallState.name`). -/
def CallState.name : CallState → String
  | .NULL => "NULL"
  | .CALL_PRESENT => "CALL_PRESENT"
  | .MO_TERM_CALL_CONF => "MO_TERM_CALL_CONF"
  | .CALL_RECEIVED => "CALL_RECEIVED"
  | .CONNECT_REQUEST => "CONNECT_REQUEST"
  | .ACTIVE => "ACTIVE"
  | .DISCONNECT_IND => "DISCONNECT_IND"
  | .RELEASE_REQ => "RELEASE_REQ"
  | .BROKEN_BY_BTS => "BROKEN_BY_BTS"
  | .NOT_AVAILABLE => "NOT_AVAILABLE"
  | .NEW => "NEW"

/-- `CallState(value)` lookup by enum value; `none` models the `ValueError`
Python raises for an unknown value (all member values equal member names). -/
def CallState.fromValue : String → Option CallState
  | "NULL" => some .NULL
  | "CALL_PRESENT" => some .CALL_PRESENT
  | "MO_TERM_CALL_CONF" => some .MO_TERM_CALL_CONF
  | "CALL_RECEIVED" => some .CALL_RECEIVED
  | "CONNECT_REQUEST" => some .CONNECT_REQUEST
  | "ACTIVE" => some .ACTIVE
  | "DISCONNECT_IND" => some .DISCONNECT_IND
  | "RELEASE_REQ" => some .RELEASE_REQ
  | "BROKEN_BY_BTS" => some .BROKEN_BY_BTS
  | "NOT_AVAILABLE" => some .NOT_AVAILABLE
  | "NEW" => some .NEW
  | _ => none

/-- `CallStateEvent`: a change-call-state event.  The constructor argument
order follows the source: `CallStateEvent(state, prev_state, event_time)`. -/
structure CallStateEvent where
  state : CallState
  prev_state : CallState
  event_time : String
  deriving DecidableEq, Repr

/-- `CallStateEvent.status()` accessor. -/
def CallStateEvent.status (e : CallStateEvent) : CallState := e.state

/-- `CallStateEvent.prev_status()` accessor. -/
def CallStateEvent.prev_status (e : CallStateEvent) : CallState := e.prev_state

/-- `CallStateEvent.status_time()` accessor. -/
def CallStateEvent.status_time (e : CallStateEvent) : String := e.event_time

/-- `Call._statuses`: the available state transitions, keyed by
`(prev_state, state)`.  `some none` is a key present in the dict with value
`None` (the `RELEASE_REQ -> NULL` entry); `none` means the key is absent. -/
def statusesTable : CallState → CallState → Option (Option CallStatus)
  | .NEW, .NULL => some (some .NEW)
  | .NULL, .CALL_PRESENT => some (some .AVAILABLE)
  | .NULL, .BROKEN_BY_BTS => some (some .BREAK_BY_BTS)
  | .NULL, .NOT_AVAILABLE => some (some .NOT_AVAILABLE)
  | .CALL_PRESENT, .RELEASE_REQ => some (some .BREAK_BY_BTS)
  | .CALL_PRESENT, .NULL => some (some .BREAK_BY_BTS)
  | .CALL_PRESENT, .MO_TERM_CALL_CONF => some (some .INIT)
  | .RELEASE_REQ, .NULL => some none
  | .MO_TERM_CALL_CONF, .RELEASE_REQ => some (some .BREAK_BY_BTS)
  | .MO_TERM_CALL_CONF, .NULL => some (some .BREAK_BY_BTS)
  | .MO_TERM_CALL_CONF, .CALL_RECEIVED => some (some .RINGING)
  | .CALL_RECEIVED, .DISCONNECT_IND => some (some .REJECT_BY_USER)
  | .DISCONNECT_IND, .RELEASE_REQ => some (some .HANGUP_BY_USER)
  | .CALL_RECEIVED, .CONNECT_REQUEST => some (some .UP)
  | .CONNECT_REQUEST, .ACTIVE => some (some .ACTIVE)
  | .ACTIVE, .DISCONNECT_IND => some (some .HANGUP)
  | .DISCONNECT_IND, .NULL => some (some .HANGUP_BY_BTS)
  | .CALL_RECEIVED, .RELEASE_REQ => some (some .STOP_BY_BTS)
  | .CALL_RECEIVED, .NULL => some (some .STOP_BY_BTS)
  | _, _ => none

/-- `Call`: one phone call's record.  `status = none` models Python's
`self.status = None`; `statuses` may hold `none` entries (Python appends
`self.status` even when it is still `None`).  `errors` models the lines
appended to the `calls_error.log` file by `Call._save_error`. -/
structure Call where
  imsi : String
  callref : String
  tid : String
  events : List CallStateEvent
  statuses : List (Option CallStatus)
  status : Option CallStatus
  errors : List String
  deriving DecidableEq, Repr

/-- `Call(imsi, callref, tid)` constructor. -/
def Call.mk0 (imsi callref tid : String) : Call :=
  ⟨imsi, callref, tid, [], [], none, []⟩

/-- Python truthiness of `not self.status or not self.status.is_final()`. -/
def notFinalOpt : Option CallStatus → Bool
  | none => true
  | some s => !s.is_final

/-- `Call.add_event(event, tid)`.  The `new_status or self.status` idiom keeps
the old status when the table maps the transition to `None` (every
`CallStatus` member is truthy). -/
def Call.add_event (c : Call) (event : CallStateEvent) (tid : String) : Call :=
  let c := { c with events := c.events ++ [event], tid := tid }
  if notFinalOpt c.status then
    match statusesTable event.prev_status event.status with
    | some mapped =>
        let status' := match mapped with
          | some s => some s
          | none => c.status
        { c with status := status', statuses := c.statuses ++ [status'] }
    | none =>
        let msg := "Unknown event: " ++ event.prev_status.name ++ " -> " ++ event.status.name
        { c with errors := c.errors ++ [msg],
                 status := some .UNKNOWN,
                 statuses := c.statuses ++ [some .UNKNOWN] }
  else c

/-- `Call.get_last_state()`.  Python's `self.events[-1]` raises `IndexError`
on an empty history; the model returns `none` there (registry sessions always
have a non-empty history, see the invariant theorems). -/
def Call.get_last_state (c : Call) : Option CallState :=
  c.events.getLast?.map CallStateEvent.status

/-- `Call.get_last_event_time()`. -/
def Call.get_last_event_time (c : Call) : Option String :=
  c.events.getLast?.map CallStateEvent.status_time

/-- `Call.is_over()`. -/
def Call.is_over (c : Call) : Bool :=
  c.get_last_state ∈ [some CallState.NOT_AVAILABLE, some CallState.BROKEN_BY_BTS] ||
    (c.get_last_state = some CallState.NULL && c.events.length > 1)

/-- Fold a list of `(event, tid)` pairs through `add_event`. -/
def Call.add_events (c : Call) (es : List (CallStateEvent × String)) : Call :=
  es.foldl (fun c p => c.add_event p.1 p.2) c

/-!
String scanning primitives embedding the `re` patterns of `EventLine`.
`re.search` tries every start position from the left and, inside a match, a
greedy `.*`/`.+` prefers the rightmost continuation; log lines contain no
newline, so `.` matches every character.
-/

/-- Drop `pat` from the front of `s` when it is a literal prefix. -/
def dropPre? : List Char → List Char → Option (List Char)
  | [], s => some s
  | _ :: _, [] => none
  | p :: ps, c :: cs => if p = c then dropPre? ps cs else none

/-- Leftmost suffix position where `f` matches (the `re.search` rule). -/
def searchFirst (f : List Char → Option α) : List Char → Option α
  | [] => f []
  | c :: cs => (f (c :: cs)).orElse (fun _ => searchFirst f cs)

/-- Rightmost suffix position where `f` matches (a greedy `.*` before the
matched part backtracks from the longest prefix). -/
def searchLast (f : List Char → Option α) : List Char → Option α
  | [] => f []
  | c :: cs => (searchLast f cs).orElse (fun _ => f (c :: cs))

/-- Boolean search over every suffix. -/
def searchB (f : List Char → Bool) : List Char → Bool
  | [] => f []
  | c :: cs => f (c :: cs) || searchB f cs

/-- Does `pat` occur anywhere in `s`? (Python's `pat in line`, or an
unanchored literal regex part.) -/
def containsSub (pat : List Char) (s : List Char) : Bool :=
  searchB (fun t => pat.isPrefixOf t) s

/-- Every way of writing `s = pre ++ pat ++ rest`, as `(pre, rest)` pairs
ordered from the leftmost occurrence of `pat` (for non-empty `pat`). -/
def allSplits (pat : List Char) : List Char → List (List Char × List Char)
  | [] => []
  | c :: r =>
      (match dropPre? pat (c :: r) with
       | some t => [(([] : List Char), t)]
       | none => []) ++
      (allSplits pat r).map (fun p => (c :: p.1, p.2))

/-- `[0-9]` character class. -/
def isDigitCh (c : Char) : Bool := c.isDigit

/-- `[0-9a-f]` character class. -/
def isHexCh (c : Char) : Bool := c.isDigit || ('a' ≤ c && c ≤ 'f')

/-- One position of `EventLine._exclude = "callref-0x([48])[0-9a-f]{7}"`:
does the pattern match starting at the head of `s`? -/
def excludeHere (s : List Char) : Bool :=
  match dropPre? "callref-0x".toList s with
  | some (c :: rest) =>
      (c = '4' || c = '8') && (rest.take 7).length = 7 && (rest.take 7).all isHexCh
  | _ => false

/-- `_exclude.search(line)` as a Boolean. -/
def excludeSearch (s : List Char) : Bool := searchB excludeHere s

/-- Tail of template `"trans\(CC.*IMSI-([0-9]+):"`: match `IMSI-([0-9]+):`
at the head of `s`.  The greedy `[0-9]+` must be followed by `:`; any
shorter digit run is followed by a digit, so only the maximal run can
complete the match. -/
def imsiTail (s : List Char) : Option (List Char) :=
  (dropPre? "IMSI-".toList s).bind fun rest =>
    let ds := rest.takeWhile isDigitCh
    if !ds.isEmpty && (rest.drop ds.length).head? = some ':' then some ds else none

/-- Group of template `"trans\(CC.*IMSI-([0-9]+):"` (leftmost `trans(CC`
start, then the greedy `.*` picks the rightmost `IMSI-...:` after it). -/
def imsiGroup (s : List Char) : Option (List Char) :=
  searchFirst (fun t => (dropPre? "trans(CC".toList t).bind (searchLast imsiTail)) s

/-- One position of template `"callref-0x([0-9a-f]+) "`.  The greedy hex run
must be followed by a space; shorter runs are followed by a hex digit. -/
def callrefAt (s : List Char) : Option (List Char) :=
  (dropPre? "callref-0x".toList s).bind fun rest =>
    let hs := rest.takeWhile isHexCh
    if !hs.isEmpty && (rest.drop hs.length).head? = some ' ' then some hs else none

/-- Group of template `"callref-0x([0-9a-f]+) "`. -/
def callrefGroup (s : List Char) : Option (List Char) :=
  searchFirst callrefAt s

/-- One position of template `" tid-([0-9]+)[,)]"`. -/
def tidAt (s : List Char) : Option (List Char) :=
  (dropPre? " tid-".toList s).bind fun rest =>
    let ds := rest.takeWhile isDigitCh
    if !ds.isEmpty &&
       ((rest.drop ds.length).head? = some ',' || (rest.drop ds.length).head? = some ')') then
      some ds
    else none

/-- Group of template `" tid-([0-9]+)[,)]"`. -/
def tidGroup (s : List Char) : Option (List Char) :=
  searchFirst tidAt s

/-- Group of template `"^(.*) bts"`: anchored at the start, the greedy `.*`
captures everything before the last occurrence of `" bts"`. -/
def timeGroup (s : List Char) : Option (List Char) :=
  ((allSplits " bts".toList s).map Prod.fst).getLast?

/-- Rightmost split of `rest` around `" -> "` with both sides non-empty: the
shared shape of templates `" new state (.+) -> .+$"` and
`" new state .+ -> (.+)$"` (both greedy parts prefer the rightmost arrow
leaving at least one character on each side, and `$` pins the right side to
the end of the line). -/
def arrowSplit (rest : List Char) : Option (List Char × List Char) :=
  ((allSplits " -> ".toList rest).filter (fun p => !p.1.isEmpty && !p.2.isEmpty)).getLast?

/-- Both groups of the two `" new state "` templates: leftmost
`" new state "` start admitting an arrow split. -/
def newStateSplit (s : List Char) : Option (List Char × List Char) :=
  searchFirst (fun t => (dropPre? " new state ".toList t).bind arrowSplit) s

/-- Template `"tid-255.* (Paging expired)$"` as a Boolean (the group, when
matched, is always the literal `"Paging expired"`). -/
def expiredMatch (s : List Char) : Bool :=
  searchB (fun t =>
    "tid-255".toList.isPrefixOf t && " Paging expired".toList.isSuffixOf (t.drop 7)) s

/-- Template `" (New transaction)$"` as a Boolean. -/
def newTransactionMatch (s : List Char) : Bool :=
  " New transaction".toList.isSuffixOf s

/-- Template `"^.* bts.*(Started Osmocom Mobile Switching Center)"` as a
Boolean (the leading `^.*` imposes nothing). -/
def startedMatch (s : List Char) : Bool :=
  searchB (fun t =>
    " bts".toList.isPrefixOf t &&
      containsSub "Started Osmocom Mobile Switching Center".toList (t.drop 4)) s

/-- Template `"tid-255.* tx (MNCC_REL_CNF)$"` as a Boolean. -/
def btsBreakMatch (s : List Char) : Bool :=
  searchB (fun t =>
    "tid-255".toList.isPrefixOf t && " tx MNCC_REL_CNF".toList.isSuffixOf (t.drop 7)) s

/-- Python group-or-empty-string: `match.group(1) if match else ""`. -/
def strOf : Option (List Char) → String
  | some l => ⟨l⟩
  | none => ""

/-- `EventLine`: one classified BTS log line. -/
structure EventLine where
  imsi : String
  callref : String
  tid : String
  event_time : String
  event : Option CallStateEvent
  is_started_event : Bool
  deriving DecidableEq, Repr

/-- `EventLine.create(line)`.  `.ok none` is Python's `return None` on the
exclusion filter; `.error` models the exceptions (`ValueError` from
`CallState(value)` on an unknown state value, `Exception("Unknown event")`
when no branch fires). -/
def EventLine.create (line : String) : Except String (Option EventLine) :=
  let cs := line.toList
  if excludeSearch cs then .ok none
  else
    let imsi := strOf (imsiGroup cs)
    let callref := strOf (callrefGroup cs)
    let tid := strOf (tidGroup cs)
    let event_time := strOf (timeGroup cs)
    let from_state := strOf ((newStateSplit cs).map (fun p => p.1))
    let to_state := strOf ((newStateSplit cs).map (fun p => p.2))
    if newTransactionMatch cs then
      .ok (some ⟨imsi, callref, tid, event_time,
                 some ⟨CallState.NULL, CallState.NEW, event_time⟩, false⟩)
    else if startedMatch cs then
      .ok (some ⟨imsi, callref, tid, event_time, none, true⟩)
    else if btsBreakMatch cs then
      .ok (some ⟨imsi, callref, tid, event_time,
                 some ⟨CallState.BROKEN_BY_BTS, CallState.NULL, event_time⟩, false⟩)
    else if expiredMatch cs then
      .ok (some ⟨imsi, callref, tid, event_time,
                 some ⟨CallState.NOT_AVAILABLE, CallState.NULL, event_time⟩, false⟩)
    else if from_state ≠ "" ∧ to_state ≠ "" then
      match CallState.fromValue to_state, CallState.fromValue from_state with
      | some toSt, some fromSt =>
          .ok (some ⟨imsi, callref, tid, event_time, some ⟨toSt, fromSt, event_time⟩, false⟩)
      | _, _ => .error "ValueError"
    else .error "Unknown event"

/-!
The registry (`CallTimestamp._process_logs`).  Python dicts preserve
insertion order and update values in place, which `insertA` mirrors exactly;
`lookupA` is dict lookup (keys are unique by construction).
-/

/-- Association-list lookup. -/
def lookupA : List (String × α) → String → Option α
  | [], _ => none
  | (k, v) :: r, key => if k = key then some v else lookupA r key

/-- Association-list insert with Python-dict semantics: update in place,
else append at the end. -/
def insertA : List (String × α) → String → α → List (String × α)
  | [], key, v => [(key, v)]
  | (k, w) :: r, key, v => if k = key then (key, v) :: r else (k, w) :: insertA r key v

/-- `callref → Call` map of one subscriber. -/
abbrev CallsMap := List (String × Call)

/-- `imsi → callref → Call` registry of the open generation. -/
abbrev LogsMap := List (String × CallsMap)

/-- `generation key → registry` map of archived generations. -/
abbrev AllLogsMap := List (String × LogsMap)

/-- The mutable fields of `CallTimestamp` that `_process_logs` touches. -/
structure CTState where
  all_logs : AllLogsMap
  logs : LogsMap
  start_time : Option String
  deriving DecidableEq, Repr

/-- The freshly initialized `CallTimestamp` state. -/
def CTState.init : CTState := ⟨[], [], none⟩

/-- Python f-string rendering of an optional value (`None` prints as
`"None"`). -/
def pyStr : Option String → String
  | none => "None"
  | some s => s

/-- Python `start_time or event.event_time` (both `None` and `""` are
falsy). -/
def pyOrStr (o : Option String) (t : String) : Option String :=
  match o with
  | some s => if s = "" then some t else some s
  | none => some t

/-- Last raw states excluded from sentinel routing. -/
def noRouteStates : List (Option CallState) :=
  [some CallState.NULL, some CallState.BROKEN_BY_BTS, some CallState.NOT_AVAILABLE]

/-- Whether a sentinel-routed event with transaction id `tid` is delivered to
session `c`. -/
def routeMatch (c : Call) (tid : String) : Bool :=
  decide (c.tid = tid ∧ c.get_last_state ∉ noRouteStates)

/-- The `event.callref == "0"` loop: deliver the event to the first matching
session in iteration order, leaving every other session unchanged. -/
def routeFirst (calls : CallsMap) (e : CallStateEvent) (tid : String) : CallsMap :=
  match calls with
  | [] => []
  | (k, c) :: r =>
      if routeMatch c tid then (k, c.add_event e tid) :: r
      else (k, c) :: routeFirst r e tid

/-- The body of the `for line in lines` loop of `_process_logs`, for one
classified event.  `.error "Same callref"` models
`raise Exception("Same callref")`; `.error "AttributeError"` models the
(unreachable from `create`) access `event.event.prev_status()` on `None`. -/
def processEvent (st : CTState) (ev : EventLine) : Except String CTState :=
  if ev.is_started_event then
    if !st.logs.isEmpty then
      .ok ⟨insertA st.all_logs (pyStr st.start_time ++ "-" ++ ev.event_time) st.logs,
           [], some ev.event_time⟩
    else
      .ok ⟨st.all_logs, st.logs, some ev.event_time⟩
  else
    match ev.event with
    | none => .error "AttributeError"
    | some e =>
      if e.prev_status = CallState.NEW then
        let start' := pyOrStr st.start_time ev.event_time
        let new_call := (Call.mk0 ev.imsi ev.callref ev.tid).add_event e ev.tid
        match lookupA st.logs ev.imsi with
        | none => .ok ⟨st.all_logs, insertA st.logs ev.imsi [(ev.callref, new_call)], start'⟩
        | some calls =>
          if (lookupA calls ev.callref).isSome then .error "Same callref"
          else .ok ⟨st.all_logs, insertA st.logs ev.imsi (insertA calls ev.callref new_call), start'⟩
      else if ev.callref = "0" then
        match lookupA st.logs ev.imsi with
        | none => .ok st
        | some calls =>
            .ok ⟨st.all_logs, insertA st.logs ev.imsi (routeFirst calls e ev.tid), st.start_time⟩
      else
        match lookupA st.logs ev.imsi with
        | none => .ok st
        | some calls =>
          match lookupA calls ev.callref with
          | none => .ok st
          | some c =>
              .ok ⟨st.all_logs,
                   insertA st.logs ev.imsi (insertA calls ev.callref (c.add_event e ev.tid)),
                   st.start_time⟩

/-- The pre-filter of `_process_logs` (evaluated on the unstripped line). -/
def keptLine (line : String) : Bool :=
  let cs := line.toList
  (containsSub "Started Osmocom".toList cs ||
   (containsSub " New transaction".toList cs && containsSub "trans(CC".toList cs) ||
   containsSub " new state ".toList cs ||
   (containsSub " Paging expired".toList cs && containsSub "trans(CC".toList cs) ||
   (containsSub "tid-255,PAGING) tx MNCC_REL_CNF".toList cs && containsSub "trans(CC".toList cs)) &&
  !containsSub "tid-8".toList cs

/-- `line.strip()` (whitespace on both ends). -/
def stripWS (s : String) : String :=
  ⟨((s.toList.dropWhile Char.isWhitespace).reverse.dropWhile Char.isWhitespace).reverse⟩

/-- One loop iteration over a raw line: classify, skip excluded lines, fold
the event. -/
def processLine (st : CTState) (line : String) : Except String CTState :=
  match EventLine.create line with
  | .error msg => .error msg
  | .ok none => .ok st
  | .ok (some ev) => processEvent st ev

/-- The whole event-folding loop; an exception aborts the run. -/
def processLines (st : CTState) (lines : List String) : Except String CTState :=
  match lines with
  | [] => .ok st
  | l :: r =>
      match processLine st l with
      | .error m => .error m
      | .ok st' => processLines st' r

/-- The returned `all_logs`, with the open generation exposed under the
unterminated key `"{start_time}-"` when non-empty. -/
def finalizeRecords (st : CTState) : AllLogsMap :=
  if !st.logs.isEmpty then insertA st.all_logs (pyStr st.start_time ++ "-") st.logs
  else st.all_logs

/-- `CallTimestamp._process_logs(lines)`: pre-filter and strip the lines,
fold every event, then return the new state plus the returned records. -/
def processLogs (st : CTState) (lines : List String) : Except String (CTState × AllLogsMap) :=
  let kept := (lines.filter keptLine).map stripWS
  match processLines st kept with
  | .error m => .error m
  | .ok st' => .ok (st', finalizeRecords st')

/-- The checkpoint state persisted by `get_log`: `_dump()` runs only after
`_process_logs` returns, so a raised exception leaves the persisted
checkpoint unchanged. -/
def getLogPersist (st : CTState) (lines : List String) : CTState :=
  match processLogs st lines with
  | .error _ => st
  | .ok (st', _) => st'

/-- The fixed "interesting" status set of `Sdr.calls_status` (a Python set;
its iteration order is implementation-defined, so claims about the result are
stated up to membership). -/
def statusFilterList : List CallStatus :=
  [CallStatus.NOT_AVAILABLE, CallStatus.RINGING, CallStatus.ACTIVE,
   CallStatus.REJECT_BY_USER, CallStatus.HANGUP]

/-- `Sdr.calls_status()` on the records returned by `get_log`:
`records[list(records.keys())[-1]]` is the last entry's value since dict keys
are unique; per subscriber, the statuses of all their sessions are
accumulated and intersected with `statusFilterList`. -/
def calls_status (records : AllLogsMap) : List (String × List CallStatus) :=
  match records.getLast? with
  | none => []
  | some lastRec =>
      lastRec.2.map fun p =>
        let all_statuses := p.2.foldl (fun acc q => acc ++ q.2.statuses) []
        (p.1, statusFilterList.filter (fun s => all_statuses.contains (some s)))

/-! Concrete log lines for the spec's sample scenarios (§8). -/

/-- Sample scenario, line 1: session create for IMSI 111, callref 12345678. -/
def c9line1 : String :=
  "Jan 01 00:00:01 bts osmo-msc[123]: DCC trans(CC IMSI-111:0x12345678 SUBSCR_CONN tid-1, callref-0x12345678 ) New transaction"

/-- Sample scenario, line 2: `new state NULL -> CALL_PRESENT`. -/
def c9line2 : String :=
  "Jan 01 00:00:02 bts osmo-msc[123]: DCC trans(CC IMSI-111:0x12345678 SUBSCR_CONN tid-1, callref-0x12345678 ) new state NULL -> CALL_PRESENT"

/-- Sample scenario, line 3: `new state CALL_PRESENT -> MO_TERM_CALL_CONF`. -/
def c9line3 : String :=
  "Jan 01 00:00:03 bts osmo-msc[123]: DCC trans(CC IMSI-111:0x12345678 SUBSCR_CONN tid-1, callref-0x12345678 ) new state CALL_PRESENT -> MO_TERM_CALL_CONF"

/-- Generation-boundary scenario: create for IMSI 222, callref 23456789. -/
def c7line2 : String :=
  "Jan 01 00:00:02 bts osmo-msc[123]: DCC trans(CC IMSI-222:0x23456789 SUBSCR_CONN tid-1, callref-0x23456789 ) New transaction"

/-- Generation-boundary scenario: the service-restart marker. -/
def c7lineStart : String :=
  "Jan 01 00:05:00 bts osmo-msc[123]: Started Osmocom Mobile Switching Center"

/-- Generation-boundary scenario: create for IMSI 333 after the marker. -/
def c7line3 : String :=
  "Jan 01 00:06:00 bts osmo-msc[123]: DCC trans(CC IMSI-333:0x3456789a SUBSCR_CONN tid-1, callref-0x3456789a ) New transaction"

/-! Concrete registry states instantiating the sentinel-routing, query and
invariant claims. -/

/-- A session whose transaction id does not match the sentinel event. -/
def c6callA : Call :=
  ⟨"111", "a", "2", [⟨CallState.CALL_RECEIVED, CallState.MO_TERM_CALL_CONF, "t1"⟩],
   [some CallStatus.RINGING], some CallStatus.RINGING, []⟩

/-- The first matching session for the sentinel event. -/
def c6callB : Call :=
  ⟨"111", "b", "1", [⟨CallState.CALL_RECEIVED, CallState.MO_TERM_CALL_CONF, "t1"⟩],
   [some CallStatus.RINGING], some CallStatus.RINGING, []⟩

/-- A later session that also matches but must stay untouched. -/
def c6callC : Call :=
  ⟨"111", "c", "1", [⟨CallState.CALL_RECEIVED, CallState.MO_TERM_CALL_CONF, "t1"⟩],
   [some CallStatus.RINGING], some CallStatus.RINGING, []⟩

/-- Registry with the three sessions of subscriber 111. -/
def c6state : CTState :=
  ⟨[], [("111", [("a", c6callA), ("b", c6callB), ("c", c6callC)])], some "t0"⟩

/-- The sentinel-routed state transition. -/
def c6event : CallStateEvent :=
  ⟨CallState.DISCONNECT_IND, CallState.CALL_RECEIVED, "t2"⟩

/-- The sentinel event line (`callref == "0"`). -/
def c6line : EventLine := ⟨"111", "0", "1", "t2", some c6event, false⟩

/-- A finished session carrying the statuses `RINGING` and `ACTIVE`. -/
def c8call : Call :=
  ⟨"111", "cr", "1", [⟨CallState.ACTIVE, CallState.CONNECT_REQUEST, "t"⟩],
   [some CallStatus.RINGING, some CallStatus.ACTIVE], some CallStatus.ACTIVE, []⟩

/-- A one-subscriber generation for the query claim. -/
def c8gen : LogsMap := [("111", [("cr", c8call)])]

/-- Records holding that single generation. -/
def c8records : AllLogsMap := [("g0-", c8gen)]

/-- The session produced by folding the sample create line. -/
def c10call : Call :=
  ⟨"111", "12345678", "1", [⟨CallState.NULL, CallState.NEW, "Jan 01 00:00:01"⟩],
   [some CallStatus.NEW], some CallStatus.NEW, []⟩

/-- The registry after folding the sample create line. -/
def c10logs : LogsMap := [("111", [("12345678", c10call)])]

/-- The state after folding the sample create line. -/
def c10state : CTState := ⟨[], c10logs, some "Jan 01 00:00:01"⟩

/-- The records returned for that run. -/
def c10recs : AllLogsMap := [("Jan 01 00:00:01-", c10logs)]

/-!
Wellformedness of registry sessions: a non-empty event history and a set
status.  The `Call` constructor leaves both empty, but every session stored
in the registry is created through the session-create path, which applies
the `NEW -> NULL` bootstrap event before insertion.
-/

/-- A session with a non-empty history and a set status. -/
def WFcall (c : Call) : Prop := c.events ≠ [] ∧ c.status.isSome = true

/-- Every session of one subscriber is wellformed. -/
def WFcalls (calls : CallsMap) : Prop := ∀ p ∈ calls, WFcall p.2

/-- Every session of every subscriber is wellformed. -/
def WFlogs (logs : LogsMap) : Prop := ∀ q ∈ logs, WFcalls q.2

/-- Every generation holds only wellformed sessions. -/
def WFall (al : AllLogsMap) : Prop := ∀ g ∈ al, WFlogs g.2

/-- The whole registry state is wellformed. -/
def WFct (st : CTState) : Prop := WFlogs st.logs ∧ WFall st.all_logs

end Sdr

namespace Sdr

/-! Theorems for the claims. -/

/-! Helper lemmas on the scanners and association lists (shared between
claims). -/

theorem dropPre?_append (pat s : List Char) : dropPre? pat (pat ++ s) = some s := by
  induction pat with
  | nil => rfl
  | cons p ps ih => simp [dropPre?, ih]

theorem searchB_self (f : List Char → Bool) (s : List Char) (h : f s = true) :
    searchB f s = true := by
  cases s with
  | nil => simpa [searchB] using h
  | cons c cs => simp [searchB, h]

theorem searchB_of_suffix (f : List Char → Bool) (pre s : List Char) (h : f s = true) :
    searchB f (pre ++ s) = true := by
  induction pre with
  | nil => simpa using searchB_self f s h
  | cons c cs ih => simp [searchB, ih]

theorem excludeHere_mk (d : Char) (hex7 post : List Char)
    (hd : d = '4' ∨ d = '8') (hlen : hex7.length = 7) (hhex : hex7.all isHexCh = true) :
    excludeHere ("callref-0x".toList ++ d :: hex7 ++ post) = true := by
  have htake : (hex7 ++ post).take 7 = hex7 := by
    rw [← hlen]
    exact List.take_left hex7 post
  have hdrop : dropPre? "callref-0x".toList ("callref-0x".toList ++ d :: hex7 ++ post) =
      some (d :: (hex7 ++ post)) := dropPre?_append _ _
  unfold excludeHere
  rw [hdrop]
  rcases hd with h | h <;> subst h <;> simp [htake, hlen, hhex]

/-- C1: for every `(from_state, to_state)` pair present in the transition
table, `Call.add_event` on a session whose status is unset or non-terminal
sets the status to the table's mapped `CallStatus` (leaving it unchanged for
the null-mapped `RELEASE_REQ -> NULL` entry), and in every case appends the
resulting status to the status history. -/
theorem c1_transition_table_correct (c : Call) (event : CallStateEvent) (tid : String)
    (mapped : Option CallStatus)
    (hnf : notFinalOpt c.status = true)
    (ht : statusesTable event.prev_status event.status = some mapped) :
    ((c.add_event event tid).status =
      match mapped with
      | some s => some s
      | none => c.status) ∧
    (c.add_event event tid).statuses = c.statuses ++ [(c.add_event event tid).status] := by
  simp only [Call.add_event, hnf, ht, if_true]
  cases mapped <;> simp

/-- Witness for C1: the `NEW -> NULL` bootstrap transition on a fresh session
yields status `NEW`, appended to the history. -/
theorem c1_transition_table_correct_witness :
    (((Call.mk0 "111" "12345678" "1").add_event ⟨CallState.NULL, CallState.NEW, "t0"⟩ "1").status
      = some CallStatus.NEW) ∧
    ((Call.mk0 "111" "12345678" "1").add_event ⟨CallState.NULL, CallState.NEW, "t0"⟩ "1").statuses
      = (Call.mk0 "111" "12345678" "1").statuses ++
        [((Call.mk0 "111" "12345678" "1").add_event ⟨CallState.NULL, CallState.NEW, "t0"⟩ "1").status] :=
  c1_transition_table_correct (Call.mk0 "111" "12345678" "1")
    ⟨CallState.NULL, CallState.NEW, "t0"⟩ "1" (some CallStatus.NEW) rfl rfl

/-- C2: once a call's status is terminal, every further `add_event` still
appends the raw event to the event history but never changes the status. -/
theorem c2_terminal_freeze (c : Call) (s : CallStatus) (es : List (CallStateEvent × String))
    (hs : c.status = some s) (hf : s.is_final = true) :
    (c.add_events es).status = some s ∧
    (c.add_events es).events = c.events ++ es.map Prod.fst := by
  induction es generalizing c with
  | nil => simpa [Call.add_events] using hs
  | cons p rest ih =>
    have hstep : (c.add_event p.1 p.2).status = some s ∧
        (c.add_event p.1 p.2).events = c.events ++ [p.1] := by
      simp [Call.add_event, notFinalOpt, hs, hf]
    have hrest := ih (c.add_event p.1 p.2) hstep.1
    refine ⟨?_, ?_⟩
    · simpa [Call.add_events] using hrest.1
    · have : (c.add_events (p :: rest)).events =
          (c.add_event p.1 p.2).events ++ rest.map Prod.fst := by
        simpa [Call.add_events] using hrest.2
      simp [this, hstep.2]

/-- Witness for C2: a session frozen in `STOP_BY_BTS` keeps that status while
recording one more event. -/
theorem c2_terminal_freeze_witness :
    ((⟨"111", "12345678", "1", [⟨CallState.NULL, CallState.CALL_RECEIVED, "t0"⟩],
        [some CallStatus.STOP_BY_BTS], some CallStatus.STOP_BY_BTS, []⟩ : Call).add_events
        [(⟨CallState.CALL_PRESENT, CallState.NULL, "t1"⟩, "1")]).status
      = some CallStatus.STOP_BY_BTS ∧
    ((⟨"111", "12345678", "1", [⟨CallState.NULL, CallState.CALL_RECEIVED, "t0"⟩],
        [some CallStatus.STOP_BY_BTS], some CallStatus.STOP_BY_BTS, []⟩ : Call).add_events
        [(⟨CallState.CALL_PRESENT, CallState.NULL, "t1"⟩, "1")]).events
      = [⟨CallState.NULL, CallState.CALL_RECEIVED, "t0"⟩] ++
        [(⟨CallState.CALL_PRESENT, CallState.NULL, "t1"⟩, ("1" : String))].map Prod.fst :=
  c2_terminal_freeze _ CallStatus.STOP_BY_BTS _ rfl rfl

/-- C3: an event whose `(prev_state, state)` pair is absent from the table,
applied to a session with unset or non-terminal status, appends a diagnostic
line to the anomaly log, sets the status to `UNKNOWN`, appends it to the
status history, records the event, and leaves the session queryable (its last
raw state is the event's state); `add_event` is total, so no exception is
raised. -/
theorem c3_unknown_transition_safe (c : Call) (event : CallStateEvent) (tid : String)
    (hnf : notFinalOpt c.status = true)
    (ht : statusesTable event.prev_status event.status = none) :
    (c.add_event event tid).status = some CallStatus.UNKNOWN ∧
    (c.add_event event tid).errors =
      c.errors ++ ["Unknown event: " ++ event.prev_status.name ++ " -> " ++ event.status.name] ∧
    (c.add_event event tid).statuses = c.statuses ++ [some CallStatus.UNKNOWN] ∧
    (c.add_event event tid).events = c.events ++ [event] ∧
    (c.add_event event tid).get_last_state = some event.status := by
  simp [Call.add_event, hnf, ht, Call.get_last_state]

/-- Witness for C3: the unmapped pair `ACTIVE -> ACTIVE` on a fresh session
yields `UNKNOWN` and a diagnostic entry. -/
theorem c3_unknown_transition_safe_witness :
    (((Call.mk0 "111" "12345678" "1").add_event ⟨CallState.ACTIVE, CallState.ACTIVE, "t0"⟩ "1").status
      = some CallStatus.UNKNOWN) ∧
    ((Call.mk0 "111" "12345678" "1").add_event ⟨CallState.ACTIVE, CallState.ACTIVE, "t0"⟩ "1").errors
      = (Call.mk0 "111" "12345678" "1").errors ++ ["Unknown event: ACTIVE -> ACTIVE"] ∧
    ((Call.mk0 "111" "12345678" "1").add_event ⟨CallState.ACTIVE, CallState.ACTIVE, "t0"⟩ "1").statuses
      = (Call.mk0 "111" "12345678" "1").statuses ++ [some CallStatus.UNKNOWN] ∧
    ((Call.mk0 "111" "12345678" "1").add_event ⟨CallState.ACTIVE, CallState.ACTIVE, "t0"⟩ "1").events
      = (Call.mk0 "111" "12345678" "1").events ++ [⟨CallState.ACTIVE, CallState.ACTIVE, "t0"⟩] ∧
    ((Call.mk0 "111" "12345678" "1").add_event ⟨CallState.ACTIVE, CallState.ACTIVE, "t0"⟩ "1").get_last_state
      = some CallState.ACTIVE :=
  c3_unknown_transition_safe (Call.mk0 "111" "12345678" "1")
    ⟨CallState.ACTIVE, CallState.ACTIVE, "t0"⟩ "1" rfl rfl

/-- C5: `EventLine.create` returns no event for every line containing
`callref-0x` followed by `4` or `8` and seven hex digits, whatever else the
line contains: the structural decomposition hypothesis is exactly a match of
the `_exclude` pattern, and the exclusion check runs before every other
classification branch. -/
theorem c5_exclusion_filter (line : String) (pre post hex7 : List Char) (d : Char)
    (hd : d = '4' ∨ d = '8') (hlen : hex7.length = 7) (hhex : hex7.all isHexCh = true)
    (hline : line.toList = pre ++ "callref-0x".toList ++ d :: hex7 ++ post) :
    EventLine.create line = .ok none := by
  have hdata : line.data = pre ++ "callref-0x".toList ++ d :: hex7 ++ post := hline
  have hx : excludeSearch line.data = true := by
    rw [hdata]
    have h1 : pre ++ "callref-0x".toList ++ d :: hex7 ++ post =
        pre ++ ("callref-0x".toList ++ d :: hex7 ++ post) := by simp
    rw [h1]
    exact searchB_of_suffix _ pre _ (excludeHere_mk d hex7 post hd hlen hhex)
  simp [EventLine.create, hx]

/-- Witness for C5: a line carrying a `callref-0x4…` handle is dropped even
though it also matches the new-transaction and state templates. -/
theorem c5_exclusion_filter_witness :
    EventLine.create
      "Jan 01 00:00:01 bts trans(CC IMSI-111: tid-1, callref-0x4abcdef1 ) New transaction"
      = .ok none :=
  c5_exclusion_filter _ "Jan 01 00:00:01 bts trans(CC IMSI-111: tid-1, ".toList
    " ) New transaction".toList "abcdef1".toList '4' (Or.inl rfl) rfl rfl rfl

/-- C4: a session-create event (prior state `NEW`) for an `(imsi, callref)`
pair already present in the open generation makes `processEvent` raise
`Exception("Same callref")`; since `_dump()` only runs after `_process_logs`
returns, any erroring run leaves the persisted checkpoint unchanged. -/
theorem c4_duplicate_session_fails_loudly (st : CTState) (ev : EventLine)
    (e : CallStateEvent) (calls : CallsMap)
    (h1 : ev.is_started_event = false) (h2 : ev.event = some e)
    (h3 : e.prev_status = CallState.NEW)
    (h4 : lookupA st.logs ev.imsi = some calls)
    (h5 : (lookupA calls ev.callref).isSome = true) :
    processEvent st ev = .error "Same callref" ∧
    ∀ (st0 : CTState) (lines : List String) (m : String),
      processLogs st0 lines = .error m → getLogPersist st0 lines = st0 := by
  constructor
  · simp [processEvent, h1, h2, h3, h4, h5]
  · intro st0 lines m h
    simp [getLogPersist, h]

/-- Witness for C4: re-creating the session `("111", "12345678")` errors. -/
theorem c4_duplicate_session_fails_loudly_witness :
    processEvent
      ⟨[], [("111", [("12345678", Call.mk0 "111" "12345678" "1")])], some "t0"⟩
      ⟨"111", "12345678", "1", "t1", some ⟨CallState.NULL, CallState.NEW, "t1"⟩, false⟩
      = .error "Same callref" :=
  (c4_duplicate_session_fails_loudly
    ⟨[], [("111", [("12345678", Call.mk0 "111" "12345678" "1")])], some "t0"⟩
    ⟨"111", "12345678", "1", "t1", some ⟨CallState.NULL, CallState.NEW, "t1"⟩, false⟩
    ⟨CallState.NULL, CallState.NEW, "t1"⟩
    [("12345678", Call.mk0 "111" "12345678" "1")]
    rfl rfl rfl rfl rfl).1

/-- C7: a `ServiceStarted` event archives the open generation under
`"{start}-{event.time}"` exactly when it is non-empty and opens a fresh empty
generation whose start is the event's time; on the concrete run with two
sessions created before the marker and one after, the returned records hold
exactly one archived generation with the two prior sessions and one open
generation with the new session under the unterminated key. -/
theorem c7_service_started_generation (st : CTState) (ev : EventLine)
    (h : ev.is_started_event = true) :
    (∃ st', processEvent st ev = .ok st' ∧
      st'.start_time = some ev.event_time ∧
      st'.logs = [] ∧
      st'.all_logs = (if st.logs.isEmpty then st.all_logs
        else insertA st.all_logs (pyStr st.start_time ++ "-" ++ ev.event_time) st.logs)) ∧
    (processLogs CTState.init [c9line1, c7line2, c7lineStart, c7line3]).toOption.map
        (fun p => p.2.map (fun g => (g.1, g.2.map (fun q => (q.1, q.2.map Prod.fst)))))
      = some
        [("Jan 01 00:00:01-Jan 01 00:05:00", [("111", ["12345678"]), ("222", ["23456789"])]),
         ("Jan 01 00:05:00-", [("333", ["3456789a"])])] := by
  constructor
  · by_cases hl : st.logs.isEmpty
    · refine ⟨⟨st.all_logs, st.logs, some ev.event_time⟩, ?_, rfl, ?_, ?_⟩
      · simp [processEvent, h, hl]
      · simpa using hl
      · simp [hl]
    · refine ⟨⟨insertA st.all_logs (pyStr st.start_time ++ "-" ++ ev.event_time) st.logs,
        [], some ev.event_time⟩, ?_, rfl, rfl, ?_⟩
      · simp [processEvent, h, hl]
      · simp [hl]
  · rfl

/-- Witness for C7: a marker event archives a one-session generation. -/
theorem c7_service_started_generation_witness :
    (∃ st', processEvent
        ⟨[], [("111", [("12345678", Call.mk0 "111" "12345678" "1")])], some "t0"⟩
        ⟨"", "", "", "t9", none, true⟩ = .ok st' ∧
      st'.start_time = some "t9" ∧
      st'.logs = [] ∧
      st'.all_logs =
        (if ([("111", [("12345678", Call.mk0 "111" "12345678" "1")])] : LogsMap).isEmpty
         then ([] : AllLogsMap)
         else insertA [] (pyStr (some "t0") ++ "-" ++ "t9")
                [("111", [("12345678", Call.mk0 "111" "12345678" "1")])])) ∧
    (processLogs CTState.init [c9line1, c7line2, c7lineStart, c7line3]).toOption.map
        (fun p => p.2.map (fun g => (g.1, g.2.map (fun q => (q.1, q.2.map Prod.fst)))))
      = some
        [("Jan 01 00:00:01-Jan 01 00:05:00", [("111", ["12345678"]), ("222", ["23456789"])]),
         ("Jan 01 00:05:00-", [("333", ["3456789a"])])] :=
  c7_service_started_generation
    ⟨[], [("111", [("12345678", Call.mk0 "111" "12345678" "1")])], some "t0"⟩
    ⟨"", "", "", "t9", none, true⟩ rfl

/-! Association-list and routing lemmas shared between the registry
claims. -/

theorem lookupA_insertA_self (l : List (String × α)) (k : String) (v : α) :
    lookupA (insertA l k v) k = some v := by
  induction l with
  | nil => simp [insertA, lookupA]
  | cons p r ih =>
      obtain ⟨k', w⟩ := p
      by_cases h : k' = k <;> simp [insertA, lookupA, h, ih]

theorem lookupA_insertA_ne (l : List (String × α)) (k j : String) (v : α) (h : j ≠ k) :
    lookupA (insertA l k v) j = lookupA l j := by
  induction l with
  | nil => simp [insertA, lookupA, Ne.symm h]
  | cons p r ih =>
      obtain ⟨k', w⟩ := p
      by_cases hk : k' = k
      · subst hk
        simp [insertA, lookupA, Ne.symm h]
      · simp [insertA, lookupA, hk, ih]

theorem insertA_self_of_lookup (l : List (String × α)) (k : String) (v : α)
    (h : lookupA l k = some v) : insertA l k v = l := by
  induction l with
  | nil => simp [lookupA] at h
  | cons p r ih =>
      obtain ⟨k', w⟩ := p
      by_cases hk : k' = k
      · subst hk
        simp [lookupA] at h
        simp [insertA, h]
      · simp [lookupA, hk] at h
        simp [insertA, hk, ih h]

theorem insertA_append_of_none (l : List (String × α)) (k : String) (v : α)
    (h : lookupA l k = none) : insertA l k v = l ++ [(k, v)] := by
  induction l with
  | nil => simp [insertA]
  | cons p r ih =>
      obtain ⟨k', w⟩ := p
      by_cases hk : k' = k
      · simp [lookupA, hk] at h
      · simp [lookupA, hk] at h
        simp [insertA, hk, ih h]

theorem routeFirst_nomatch (calls : CallsMap) (e : CallStateEvent) (tid : String)
    (h : ∀ p ∈ calls, routeMatch p.2 tid = false) :
    routeFirst calls e tid = calls := by
  induction calls with
  | nil => rfl
  | cons p r ih =>
      obtain ⟨k, c⟩ := p
      have hc : routeMatch c tid = false := h (k, c) (List.mem_cons_self _ _)
      simp [routeFirst, hc]
      exact ih (fun q hq => h q (List.mem_cons_of_mem _ hq))

theorem routeFirst_split (pre : CallsMap) (k : String) (c : Call) (post : CallsMap)
    (e : CallStateEvent) (tid : String)
    (hpre : ∀ p ∈ pre, routeMatch p.2 tid = false)
    (hc : routeMatch c tid = true) :
    routeFirst (pre ++ (k, c) :: post) e tid = pre ++ (k, c.add_event e tid) :: post := by
  induction pre with
  | nil => simp [routeFirst, hc]
  | cons p r ih =>
      obtain ⟨k', c'⟩ := p
      have hp : routeMatch c' tid = false := hpre (k', c') (List.mem_cons_self _ _)
      simp [routeFirst, hp]
      exact ih (fun q hq => hpre q (List.mem_cons_of_mem _ hq))

/-- C6: an event carrying the sentinel callref `"0"` updates at most one
session: among the subscriber's sessions, in iteration order, exactly the
first whose transaction id matches and whose last raw state is not
`NULL`/`BROKEN_BY_BTS`/`NOT_AVAILABLE` (`routeMatch`) receives the event;
all other sessions, subscribers, generations and the start marker are
untouched, and with no matching session (or an unknown subscriber) the event
is dropped without error. -/
theorem c6_sentinel_routing (st : CTState) (ev : EventLine) (e : CallStateEvent)
    (h1 : ev.is_started_event = false) (h2 : ev.event = some e)
    (h3 : e.prev_status ≠ CallState.NEW) (h4 : ev.callref = "0") :
    (lookupA st.logs ev.imsi = none → processEvent st ev = .ok st) ∧
    ∀ calls, lookupA st.logs ev.imsi = some calls →
      ((∀ p ∈ calls, routeMatch p.2 ev.tid = false) → processEvent st ev = .ok st) ∧
      (∀ pre k c post, calls = pre ++ (k, c) :: post →
        (∀ p ∈ pre, routeMatch p.2 ev.tid = false) → routeMatch c ev.tid = true →
        ∃ st', processEvent st ev = .ok st' ∧
          st'.all_logs = st.all_logs ∧ st'.start_time = st.start_time ∧
          (∀ j, j ≠ ev.imsi → lookupA st'.logs j = lookupA st.logs j) ∧
          lookupA st'.logs ev.imsi = some (pre ++ (k, c.add_event e ev.tid) :: post)) := by
  refine ⟨fun hnone => ?_, fun calls hsome => ⟨fun hnomatch => ?_, ?_⟩⟩
  · simp [processEvent, h1, h2, h3, h4, hnone]
  · have hroute := routeFirst_nomatch calls e ev.tid hnomatch
    have hins := insertA_self_of_lookup st.logs ev.imsi calls hsome
    simp [processEvent, h1, h2, h3, h4, hsome, hroute, hins]
  · intro pre k c post hsplit hpre hc
    refine ⟨⟨st.all_logs, insertA st.logs ev.imsi (routeFirst calls e ev.tid), st.start_time⟩,
      ?_, rfl, rfl, ?_, ?_⟩
    · simp [processEvent, h1, h2, h3, h4, hsome]
    · intro j hj
      exact lookupA_insertA_ne st.logs ev.imsi j _ hj
    · rw [hsplit, routeFirst_split pre k c post e ev.tid hpre hc]
      exact lookupA_insertA_self st.logs ev.imsi _

/-- C9: feeding the pipeline the three sample lines (session create, then
`NULL -> CALL_PRESENT`, then `CALL_PRESENT -> MO_TERM_CALL_CONF`) produces
one session whose status sequence is `[NEW, AVAILABLE, INIT]` and for which
`is_over()` is false. -/
theorem c9_sample_scenario :
    ((processLogs CTState.init [c9line1, c9line2, c9line3]).toOption.bind
        (fun p => (lookupA p.1.logs "111").bind (fun cm => lookupA cm "12345678"))).map
        (fun c => (c.statuses, c.is_over))
      = some ([some CallStatus.NEW, some CallStatus.AVAILABLE, some CallStatus.INIT], false) := by
  rfl

/-- Witness for C6: among three sessions (non-matching tid, first match,
second match) only the first match receives the sentinel event. -/
theorem c6_sentinel_routing_witness :
    ∃ st', processEvent c6state c6line = .ok st' ∧
      st'.all_logs = c6state.all_logs ∧ st'.start_time = c6state.start_time ∧
      (∀ j, j ≠ c6line.imsi → lookupA st'.logs j = lookupA c6state.logs j) ∧
      lookupA st'.logs c6line.imsi =
        some ([("a", c6callA)] ++ ("b", c6callB.add_event c6event c6line.tid) :: [("c", c6callC)]) :=
  ((c6_sentinel_routing c6state c6line c6event rfl rfl (by decide) rfl).2
      [("a", c6callA), ("b", c6callB), ("c", c6callC)] rfl).2
    [("a", c6callA)] "b" c6callB [("c", c6callC)] rfl (by decide) (by decide)

/-! Lemmas for the query facade. -/

theorem lookupA_map_val (l : List (String × α)) (f : String × α → β) (key : String) :
    lookupA (l.map (fun p => (p.1, f p))) key = (lookupA l key).map (fun v => f (key, v)) := by
  induction l with
  | nil => rfl
  | cons p r ih =>
      obtain ⟨k', v⟩ := p
      by_cases h : k' = key
      · subst h
        simp [lookupA]
      · simp [lookupA, h, ih]

theorem mem_statuses_foldl (calls : CallsMap) (acc : List (Option CallStatus))
    (x : Option CallStatus) :
    (x ∈ calls.foldl (fun a q => a ++ q.2.statuses) acc) ↔
      x ∈ acc ∨ ∃ p ∈ calls, x ∈ p.2.statuses := by
  induction calls generalizing acc with
  | nil => simp
  | cons p r ih =>
      rw [List.foldl_cons, ih]
      simp [List.mem_append, or_assoc]

/-- C8: `calls_status` returns, per subscriber of the most recent generation,
the set-intersection of all statuses accumulated across that subscriber's
sessions with the fixed interesting set, and an empty map when no generation
exists; the most recent generation is the open one when non-empty (exposed
as the last record under the unterminated key) and the returned records are
just the archived generations otherwise. -/
theorem c8_calls_status_intersection (records : AllLogsMap) (gkey : String) (gen : LogsMap)
    (hlast : records.getLast? = some (gkey, gen)) :
    calls_status ([] : AllLogsMap) = [] ∧
    (∀ imsi calls, lookupA gen imsi = some calls →
      ∃ out, lookupA (calls_status records) imsi = some out ∧
        ∀ s : CallStatus,
          s ∈ out ↔ s ∈ statusFilterList ∧ ∃ p ∈ calls, some s ∈ p.2.statuses) ∧
    (∀ st : CTState, st.logs.isEmpty = false →
      lookupA st.all_logs (pyStr st.start_time ++ "-") = none →
      (finalizeRecords st).getLast? = some (pyStr st.start_time ++ "-", st.logs)) ∧
    (∀ st : CTState, st.logs.isEmpty = true → finalizeRecords st = st.all_logs) := by
  refine ⟨rfl, fun imsi calls h => ?_, fun st hne hfresh => ?_, fun st hemp => ?_⟩
  · have hcs : calls_status records =
        gen.map (fun p =>
          (p.1, statusFilterList.filter
            (fun s => (p.2.foldl (fun acc q => acc ++ q.2.statuses) []).contains (some s)))) := by
      simp [calls_status, hlast]
    refine ⟨statusFilterList.filter
        (fun s => (calls.foldl (fun acc q => acc ++ q.2.statuses) []).contains (some s)),
      ?_, ?_⟩
    · rw [hcs, lookupA_map_val gen
        (fun p => statusFilterList.filter
          (fun s => (p.2.foldl (fun acc q => acc ++ q.2.statuses) []).contains (some s))) imsi, h]
      rfl
    · intro s
      simp [List.mem_filter, mem_statuses_foldl]
  · unfold finalizeRecords
    rw [if_pos (by simp [hne]), insertA_append_of_none st.all_logs _ _ hfresh]
    simp
  · unfold finalizeRecords
    rw [if_neg (by simp [hemp])]

/-- Witness for C8: a single generation with one session whose statuses are
`RINGING` then `ACTIVE`. -/
theorem c8_calls_status_intersection_witness :
    calls_status ([] : AllLogsMap) = [] ∧
    (∀ imsi calls, lookupA c8gen imsi = some calls →
      ∃ out, lookupA (calls_status c8records) imsi = some out ∧
        ∀ s : CallStatus,
          s ∈ out ↔ s ∈ statusFilterList ∧ ∃ p ∈ calls, some s ∈ p.2.statuses) ∧
    (∀ st : CTState, st.logs.isEmpty = false →
      lookupA st.all_logs (pyStr st.start_time ++ "-") = none →
      (finalizeRecords st).getLast? = some (pyStr st.start_time ++ "-", st.logs)) ∧
    (∀ st : CTState, st.logs.isEmpty = true → finalizeRecords st = st.all_logs) :=
  c8_calls_status_intersection c8records "g0-" c8gen rfl

/-! Preservation lemmas for the registry wellformedness invariant. -/

theorem mem_insertA (l : List (String × α)) (k : String) (v : α) (p : String × α)
    (h : p ∈ insertA l k v) : p = (k, v) ∨ p ∈ l := by
  induction l with
  | nil => simpa [insertA] using h
  | cons q r ih =>
      obtain ⟨k', w⟩ := q
      by_cases hk : k' = k
      · subst hk
        simp [insertA] at h
        rcases h with h | h
        · exact Or.inl (by simp [h])
        · exact Or.inr (List.mem_cons_of_mem _ h)
      · simp [insertA, hk] at h
        rcases h with h | h
        · exact Or.inr (by simp [h])
        · rcases ih h with h' | h'
          · exact Or.inl h'
          · exact Or.inr (List.mem_cons_of_mem _ h')

theorem lookupA_mem (l : List (String × α)) (k : String) (v : α)
    (h : lookupA l k = some v) : (k, v) ∈ l := by
  induction l with
  | nil => simp [lookupA] at h
  | cons q r ih =>
      obtain ⟨k', w⟩ := q
      by_cases hk : k' = k
      · subst hk
        simp [lookupA] at h
        simp [h]
      · simp [lookupA, hk] at h
        exact List.mem_cons_of_mem _ (ih h)

theorem add_event_events_ne (c : Call) (e : CallStateEvent) (tid : String) :
    (c.add_event e tid).events ≠ [] := by
  unfold Call.add_event
  by_cases hnf : notFinalOpt c.status
  · cases htab : statusesTable e.prev_status e.status with
    | none => simp [hnf, htab]
    | some mapped => simp [hnf, htab]
  · simp [hnf]

theorem add_event_status_isSome (c : Call) (e : CallStateEvent) (tid : String)
    (h : c.status.isSome = true) : (c.add_event e tid).status.isSome = true := by
  unfold Call.add_event
  by_cases hnf : notFinalOpt c.status
  · cases htab : statusesTable e.prev_status e.status with
    | none => simp [hnf, htab]
    | some mapped => cases mapped <;> simp [hnf, htab, h]
  · simp [hnf, h]

theorem WFcall_add_event (c : Call) (e : CallStateEvent) (tid : String)
    (h : WFcall c) : WFcall (c.add_event e tid) :=
  ⟨add_event_events_ne c e tid, add_event_status_isSome c e tid h.2⟩

theorem WFcall_fresh (i r t : String) (e : CallStateEvent) (tid : String)
    (h : e.prev_status = CallState.NEW) :
    WFcall ((Call.mk0 i r t).add_event e tid) := by
  refine ⟨add_event_events_ne _ e tid, ?_⟩
  obtain ⟨stt, prev, tm⟩ := e
  simp only [CallStateEvent.prev_status] at h
  subst h
  cases stt <;>
    simp [Call.add_event, Call.mk0, statusesTable, notFinalOpt,
      CallStateEvent.prev_status, CallStateEvent.status]

theorem WFcalls_routeFirst (calls : CallsMap) (e : CallStateEvent) (tid : String)
    (h : WFcalls calls) : WFcalls (routeFirst calls e tid) := by
  induction calls with
  | nil => exact h
  | cons p r ih =>
      obtain ⟨k, c⟩ := p
      have hc : WFcall c := h (k, c) (List.mem_cons_self _ _)
      have hr : WFcalls r := fun q hq => h q (List.mem_cons_of_mem _ hq)
      by_cases hm : routeMatch c tid
      · intro q hq
        simp [routeFirst, hm] at hq
        rcases hq with hq | hq
        · rw [hq]
          exact WFcall_add_event c e tid hc
        · exact hr _ hq
      · intro q hq
        simp [routeFirst, hm] at hq
        rcases hq with hq | hq
        · rw [hq]
          exact hc
        · exact ih hr _ hq

theorem WFcalls_insertA (calls : CallsMap) (k : String) (c : Call)
    (h : WFcalls calls) (hc : WFcall c) : WFcalls (insertA calls k c) := by
  intro p hp
  rcases mem_insertA calls k c p hp with h' | h'
  · rw [h']
    exact hc
  · exact h p h'

theorem WFlogs_insertA (logs : LogsMap) (k : String) (calls : CallsMap)
    (h : WFlogs logs) (hc : WFcalls calls) : WFlogs (insertA logs k calls) := by
  intro q hq
  rcases mem_insertA logs k calls q hq with h' | h'
  · rw [h']
    exact hc
  · exact h q h'

theorem WFall_insertA (al : AllLogsMap) (k : String) (logs : LogsMap)
    (h : WFall al) (hl : WFlogs logs) : WFall (insertA al k logs) := by
  intro g hg
  rcases mem_insertA al k logs g hg with h' | h'
  · rw [h']
    exact hl
  · exact h g h'

theorem processEvent_WF (st : CTState) (ev : EventLine) (st' : CTState)
    (hwf : WFct st) (h : processEvent st ev = .ok st') : WFct st' := by
  obtain ⟨hlogs, hall⟩ := hwf
  unfold processEvent at h
  by_cases hst : ev.is_started_event
  · rw [if_pos hst] at h
    by_cases hne : !st.logs.isEmpty
    · rw [if_pos hne] at h
      cases h
      exact ⟨fun q hq => by simp at hq, WFall_insertA _ _ _ hall hlogs⟩
    · rw [if_neg hne] at h
      cases h
      exact ⟨hlogs, hall⟩
  · rw [if_neg hst] at h
    cases hev : ev.event with
    | none => rw [hev] at h; cases h
    | some e =>
      rw [hev] at h
      dsimp only at h
      by_cases hnew : e.prev_status = CallState.NEW
      · rw [if_pos hnew] at h
        have hwfnew : WFcall ((Call.mk0 ev.imsi ev.callref ev.tid).add_event e ev.tid) :=
          WFcall_fresh ev.imsi ev.callref ev.tid e ev.tid hnew
        cases hlook : lookupA st.logs ev.imsi with
        | none =>
            rw [hlook] at h
            cases h
            refine ⟨WFlogs_insertA _ _ _ hlogs ?_, hall⟩
            intro p hp
            simp at hp
            rw [hp]
            exact hwfnew
        | some calls =>
            rw [hlook] at h
            dsimp only at h
            by_cases hdup : (lookupA calls ev.callref).isSome
            · rw [if_pos hdup] at h
              cases h
            · rw [if_neg hdup] at h
              cases h
              have hcalls : WFcalls calls := hlogs _ (lookupA_mem _ _ _ hlook)
              exact ⟨WFlogs_insertA _ _ _ hlogs (WFcalls_insertA _ _ _ hcalls hwfnew), hall⟩
      · rw [if_neg hnew] at h
        by_cases hzero : ev.callref = "0"
        · rw [if_pos hzero] at h
          cases hlook : lookupA st.logs ev.imsi with
          | none =>
              rw [hlook] at h
              cases h
              exact ⟨hlogs, hall⟩
          | some calls =>
              rw [hlook] at h
              cases h
              have hcalls : WFcalls calls := hlogs _ (lookupA_mem _ _ _ hlook)
              exact ⟨WFlogs_insertA _ _ _ hlogs (WFcalls_routeFirst _ _ _ hcalls), hall⟩
        · rw [if_neg hzero] at h
          cases hlook : lookupA st.logs ev.imsi with
          | none =>
              rw [hlook] at h
              cases h
              exact ⟨hlogs, hall⟩
          | some calls =>
              rw [hlook] at h
              dsimp only at h
              cases hlook2 : lookupA calls ev.callref with
              | none =>
                  rw [hlook2] at h
                  cases h
                  exact ⟨hlogs, hall⟩
              | some c =>
                  rw [hlook2] at h
                  cases h
                  have hcalls : WFcalls calls := hlogs _ (lookupA_mem _ _ _ hlook)
                  have hc : WFcall c := hcalls _ (lookupA_mem _ _ _ hlook2)
                  exact ⟨WFlogs_insertA _ _ _ hlogs
                    (WFcalls_insertA _ _ _ hcalls (WFcall_add_event c e ev.tid hc)), hall⟩

theorem processLines_WF (lines : List String) :
    ∀ st st', WFct st → processLines st lines = .ok st' → WFct st' := by
  induction lines with
  | nil =>
      intro st st' hwf h
      simp [processLines] at h
      rw [← h]
      exact hwf
  | cons l r ih =>
      intro st st' hwf h
      unfold processLines at h
      cases hline : processLine st l with
      | error m => rw [hline] at h; cases h
      | ok st1 =>
          rw [hline] at h
          refine ih st1 st' ?_ h
          unfold processLine at hline
          cases hcr : EventLine.create l with
          | error m => rw [hcr] at hline; cases hline
          | ok oev =>
              rw [hcr] at hline
              cases oev with
              | none =>
                  simp at hline
                  rw [← hline]
                  exact hwf
              | some ev => exact processEvent_WF st ev st1 hwf hline

theorem processLogs_ok (st : CTState) (lines : List String) (st' : CTState)
    (recs : AllLogsMap) (h : processLogs st lines = .ok (st', recs)) :
    processLines st ((lines.filter keptLine).map stripWS) = .ok st' ∧
      recs = finalizeRecords st' := by
  simp only [processLogs] at h
  cases hpl : processLines st ((lines.filter keptLine).map stripWS) with
  | error m => rw [hpl] at h; cases h
  | ok st1 =>
      rw [hpl] at h
      dsimp only at h
      injection h with h2
      rw [Prod.mk.injEq] at h2
      obtain ⟨h3, h4⟩ := h2
      subst h3
      exact ⟨rfl, h4.symm⟩

/-- C10: wellformedness of registry sessions is an invariant of
`_process_logs`: starting from a wellformed state, the resulting state and
every generation of the returned records hold only sessions with a non-empty
event history and a set status, so `get_last_state`, `get_last_event_time`,
`is_over` and the status queries never hit an empty history or a null status
(the last conjunct: a non-empty history makes both accessors defined). -/
theorem c10_registry_invariant (st : CTState) (lines : List String) (st' : CTState)
    (recs : AllLogsMap) (hwf : WFct st) (h : processLogs st lines = .ok (st', recs)) :
    WFct st' ∧ WFall recs ∧
    ∀ c : Call, c.events ≠ [] →
      (c.get_last_state).isSome = true ∧ (c.get_last_event_time).isSome = true := by
  obtain ⟨hpl, hrec⟩ := processLogs_ok st lines st' recs h
  have hwf' : WFct st' := processLines_WF _ st st' hwf hpl
  subst hrec
  refine ⟨hwf', ?_, ?_⟩
  · unfold finalizeRecords
    by_cases hne : !st'.logs.isEmpty
    · rw [if_pos hne]
      exact WFall_insertA _ _ _ hwf'.2 hwf'.1
    · rw [if_neg hne]
      exact hwf'.2
  · intro c hc
    have hsome : c.events.getLast?.isSome = true := by
      rw [List.getLast?_isSome]
      exact hc
    constructor
    · simpa [Call.get_last_state] using hsome
    · simpa [Call.get_last_event_time] using hsome

/-- Witness for C10: folding the sample create line from the initial state
yields a wellformed registry. -/
theorem c10_registry_invariant_witness :
    WFct c10state ∧ WFall c10recs ∧
    ∀ c : Call, c.events ≠ [] →
      (c.get_last_state).isSome = true ∧ (c.get_last_event_time).isSome = true :=
  c10_registry_invariant CTState.init [c9line1] c10state c10recs
    (by simp [WFct, WFlogs, WFall, CTState.init]) rfl

end Sdr
